import Mathlib

/-!
Verification of the deck acquisition and normalization pipeline of the
CockatriceAssistant repository.

Python strings are modelled as `List Char`; the helpers below reproduce the
Python string primitives the source relies on (`str.strip`, `str.split`,
`str.lower`, `str.title`, the `in` operator, `int(...)`, `str(...)`).
Stateful scraper code is modelled by passing the external state (clock,
cache contents, network responses) explicitly; fallible code returns
`Option`.
-/

namespace CA

/-- Python strings are modelled as lists of characters. -/
abbrev Str := List Char

/-- Converts a Lean string literal into the model type. -/
def str (s : String) : Str := s.toList

/-- Characters stripped by `str.strip` (the ASCII whitespace subset). -/
def isSpaceChar (c : Char) : Bool :=
  c.toNat = 32 || c.toNat = 9 || c.toNat = 10 || c.toNat = 13 ||
  c.toNat = 11 || c.toNat = 12

/-- Python `s.lstrip()`. -/
def pyLstrip (s : Str) : Str := s.dropWhile isSpaceChar

/-- Python `s.rstrip()`. -/
def pyRstrip (s : Str) : Str := (s.reverse.dropWhile isSpaceChar).reverse

/-- Python `s.strip()`. -/
def pyStrip (s : Str) : Str := pyRstrip (pyLstrip s)

/-- `startsWith p s` holds iff `p` is an initial segment of `s`
(Python `s.startswith(p)`). -/
def startsWith : Str → Str → Bool
  | [], _ => true
  | _ :: _, [] => false
  | p :: ps, c :: cs => if p = c then startsWith ps cs else false

/-- The Python `in` operator on strings: `hasSub sep s` iff `sep` occurs as a
contiguous substring of `s`. -/
def hasSub (sep : Str) : Str → Bool
  | [] => startsWith sep []
  | c :: cs => startsWith sep (c :: cs) || hasSub sep cs

/-- Python `s.split(sep)` for the non-empty separator `c0 :: sp`. -/
def splitPy (c0 : Char) (sp : Str) : Str → List Str
  | [] => [[]]
  | c :: cs =>
    if startsWith (c0 :: sp) (c :: cs) then
      [] :: splitPy c0 sp (cs.drop sp.length)
    else
      (c :: (splitPy c0 sp cs).headD []) :: (splitPy c0 sp cs).tail
termination_by s => s.length
decreasing_by
  · simp only [List.length_drop, List.length_cons]; omega
  · simp only [List.length_cons]; omega

/-- The prefix of `s` that precedes the first occurrence of the pattern
`c0 :: sp` (all of `s` when the pattern does not occur).  This is an
independent characterization of the head of a Python `split`. -/
def beforeFirst (c0 : Char) (sp : Str) : Str → Str
  | [] => []
  | c :: cs =>
    if startsWith (c0 :: sp) (c :: cs) then [] else c :: beforeFirst c0 sp cs

/-- Python `s.lower()` (ASCII). -/
def toLowerStr (s : Str) : Str := s.map Char.toLower

/-- Decimal digit test (`str.isdigit` on ASCII digits). -/
def isDigitChar (c : Char) : Bool := 48 ≤ c.toNat && c.toNat ≤ 57

/-- The character of a decimal digit. -/
def digitChar (d : Nat) : Char := Char.ofNat (48 + d)

/-- Decimal representation of a natural number (Python `str(n)` for `n ≥ 0`). -/
def natToStr (n : Nat) : Str :=
  if n < 10 then [digitChar n]
  else natToStr (n / 10) ++ [digitChar (n % 10)]
termination_by n
decreasing_by exact Nat.div_lt_self (by omega) (by omega)

/-- Python `str(i)` for an arbitrary integer. -/
def intToStr (i : Int) : Str :=
  if i < 0 then '-' :: natToStr i.natAbs else natToStr i.natAbs

/-- Accumulating decimal parser over a digit string. -/
def parseDigitsGo (acc : Nat) : Str → Option Nat
  | [] => some acc
  | c :: cs =>
    if isDigitChar c then parseDigitsGo (acc * 10 + (c.toNat - 48)) cs else none

/-- Parses a non-empty all-digit string. -/
def parseDigits (s : Str) : Option Nat :=
  if s = [] then none else parseDigitsGo 0 s

/-- Sign-and-digits part of `int(s)` applied after stripping. -/
def pyIntCore : Str → Option Int
  | [] => none
  | c :: rest =>
    if c = '-' then (parseDigits rest).map (fun n => -(Int.ofNat n))
    else if c = '+' then (parseDigits rest).map (fun n => Int.ofNat n)
    else (parseDigits (c :: rest)).map (fun n => Int.ofNat n)

/-- Python `int(s)`: surrounding whitespace allowed, optional sign, decimal
digits; `none` models the `ValueError`. -/
def pyInt (s : Str) : Option Int := pyIntCore (pyStrip s)

/-- `strEndsWith suffix s` iff `s` ends with `suffix` (Python `s.endswith`). -/
def strEndsWith (suffix s : Str) : Bool := startsWith suffix.reverse s.reverse

/-- Python `str.isdigit` (ASCII). -/
def pyIsdigit (s : Str) : Bool := !s.isEmpty && s.all isDigitChar

/-- One step of Python `str.title()`: the Bool records whether the previous
character was cased. -/
def pyTitleGo : Bool → Str → Str
  | _, [] => []
  | prev, c :: cs =>
    if c.isAlpha then
      (if prev then c.toLower else c.toUpper) :: pyTitleGo true cs
    else c :: pyTitleGo false cs

/-- Python `str.title()`. -/
def pyTitle (s : Str) : Str := pyTitleGo false s

/-- Python `s.replace("-", " ")`. -/
def replaceDash (s : Str) : Str := s.map (fun c => if c = '-' then ' ' else c)

/-! ### Canonical deck model (`deck_parser.py` and the importers) -/

/-- One card stack, class `CardEntry` of `deck_parser.py`.  The optional
provenance fields are `none` when unknown (the Python default). -/
structure CardEntry where
  number : Int
  name : Str
  setShortName : Option Str := none
  collectorNumber : Option Str := none
  uuid : Option Str := none
deriving DecidableEq

/-- Class `CockatriceDeck` of `deck_parser.py`. -/
structure CockatriceDeck where
  deckname : Str
  zone_main : List CardEntry := []
  zone_side : List CardEntry := []
deriving DecidableEq

/-- Modelled from the spec: class `CockatriceDeck` of `src/core/deck_parser.py`
(that file is absent from the sources; the fields are the ones supplied by
the importer constructor calls — `deckname`, `zone_main`, `zone_side`,
`banner_card`). -/
structure CoreCockatriceDeck where
  deckname : Str
  zone_main : List CardEntry
  zone_side : List CardEntry
  banner_card : Str
deriving DecidableEq

/-- Python truthiness of an optional string attribute. -/
def optTruthy : Option Str → Bool
  | none => false
  | some [] => false
  | some (_ :: _) => true

/-- `clean_card_name` of `deck_import.py` (textually identical in
`moxfield_scraper.py`): empty in, empty out; otherwise the part before the
first dual-face separator, trimmed; otherwise the trimmed name. -/
def clean_card_name (name : Str) : Str :=
  if name = [] then []
  else if hasSub (str "//") name then pyStrip ((splitPy '/' (str "/") name).headD [])
  else pyStrip name

/-- The plain card dictionaries the importers pass around (`quantity`,
`name`, `set`, `collector_number`, `scryfall_id`). -/
structure CardRaw where
  quantity : Int
  name : Str
  set : Str
  collector_number : Str
  scryfall_id : Str
deriving DecidableEq

/-- `UniversalDeck` of `deck_import.py`. -/
structure UniversalDeck where
  name : Str
  url : Str
  format : Str := []
  description : Str := []
  year : Str := []
  mainboard : List CardRaw := []
  sideboard : List CardRaw := []
  commanders : List Str := []
deriving DecidableEq

/-- `MoxfieldDeck` of `moxfield_scraper.py`. -/
structure MoxfieldDeck where
  name : Str
  url : Str
  commanders : List Str := []
  description : Str := []
  year : Str := []
  format : Str := []
  mainboard : List CardRaw := []
  sideboard : List CardRaw := []
deriving DecidableEq

/-- `detect_deck_format` of `deck_import.py`. -/
def detect_deck_format (deck : UniversalDeck) : Str :=
  if deck.commanders ≠ [] then str "commander"
  else
    let mainboard_count := (deck.mainboard.map (fun c => c.quantity)).sum
    if mainboard_count = 60 then str "standard"
    else if mainboard_count = 100 then str "commander"
    else if deck.format ≠ [] then toLowerStr deck.format
    else str "unknown"

/-- The `make_card_entries` helper shared by
`convert_universal_to_cockatrice` and `convert_moxfield_to_cockatrice`. -/
def make_card_entries (card_list : List CardRaw) : List CardEntry :=
  card_list.map (fun card =>
    { number := card.quantity
      name := clean_card_name card.name
      setShortName := some card.set
      collectorNumber := some card.collector_number
      uuid := some card.scryfall_id })

/-- The commander side-zone entry built inside the converters. -/
def commanderEntry (commander : Str) : CardEntry :=
  { number := 1
    name := clean_card_name commander
    setShortName := some []
    collectorNumber := some []
    uuid := some [] }

/-- The commander loop of the converters: commanders whose raw name strips
to empty are skipped, the rest become quantity-1 entries. -/
def commanderEntries (commanders : List Str) : List CardEntry :=
  (commanders.filter (fun c => pyStrip c ≠ [])).map commanderEntry

/-- The banner card chosen by the commander branch of the converters (the
first commander appended). -/
def firstCommanderBanner (commanders : List Str) : Str :=
  match commanders.filter (fun c => pyStrip c ≠ []) with
  | [] => []
  | c :: _ => clean_card_name c

/-- `convert_universal_to_cockatrice` of `deck_import.py`; `choose` models
`random.choice` (only consulted for the banner of non-commander decks). -/
def convert_universal_to_cockatrice (choose : List CardRaw → CardRaw)
    (universal_deck : UniversalDeck) : CoreCockatriceDeck :=
  if detect_deck_format universal_deck = str "commander"
      ∨ universal_deck.commanders ≠ [] then
    { deckname := universal_deck.name
      zone_main := make_card_entries universal_deck.mainboard
      zone_side := make_card_entries universal_deck.sideboard
        ++ commanderEntries universal_deck.commanders
      banner_card := firstCommanderBanner universal_deck.commanders }
  else
    { deckname := universal_deck.name
      zone_main := make_card_entries universal_deck.mainboard
      zone_side := make_card_entries universal_deck.sideboard
      banner_card :=
        if universal_deck.mainboard ≠ [] then
          clean_card_name (choose universal_deck.mainboard).name
        else [] }

/-- `convert_moxfield_to_cockatrice` of `moxfield_scraper.py`; in the
commander branch the side zone holds the commander entries only. -/
def convert_moxfield_to_cockatrice (choose : List CardRaw → CardRaw)
    (moxfield_deck : MoxfieldDeck) : CoreCockatriceDeck :=
  if moxfield_deck.commanders ≠ [] ∨ toLowerStr moxfield_deck.format = str "commander" then
    { deckname := moxfield_deck.name
      zone_main := make_card_entries moxfield_deck.mainboard
      zone_side := commanderEntries moxfield_deck.commanders
      banner_card := firstCommanderBanner moxfield_deck.commanders }
  else
    { deckname := moxfield_deck.name
      zone_main := make_card_entries moxfield_deck.mainboard
      zone_side := make_card_entries moxfield_deck.sideboard
      banner_card :=
        if moxfield_deck.mainboard ≠ [] then
          clean_card_name (choose moxfield_deck.mainboard).name
        else [] }

/-! ### Element-tree model of the `.cod` XML layer (`deck_parser.py`) -/

/-- Element-tree node: tag, attributes in document order, text, children. -/
inductive XNode where
  | elem (tag : Str) (attrs : List (Str × Str)) (text : Str) (children : List XNode)

/-- The tag of a node. -/
def xtag : XNode → Str
  | .elem t _ _ _ => t

/-- The attributes of a node. -/
def xattrs : XNode → List (Str × Str)
  | .elem _ a _ _ => a

/-- The text of a node. -/
def xtext : XNode → Str
  | .elem _ _ t _ => t

/-- The children of a node. -/
def xchildren : XNode → List XNode
  | .elem _ _ _ cs => cs

/-- `element.get(key)`. -/
def attrGet : List (Str × Str) → Str → Option Str
  | [], _ => none
  | (k, v) :: rest, key => if k = key then some v else attrGet rest key

/-- `element.findall(tag)` over the direct children. -/
def xfindall (tag : Str) (ns : List XNode) : List XNode :=
  ns.filter (fun n => xtag n = tag)

/-- `element.find(tag)`: the first direct child with the tag. -/
def xfind (tag : Str) (ns : List XNode) : Option XNode :=
  (xfindall tag ns).head?

/-- The attribute list written for one card by `write_cod` (optional fields
only when truthy). -/
def entryAttrs (c : CardEntry) : List (Str × Str) :=
  [(str "number", intToStr c.number), (str "name", c.name)]
    ++ (if optTruthy c.setShortName then
          [(str "setShortName", c.setShortName.getD [])] else [])
    ++ (if optTruthy c.collectorNumber then
          [(str "collectorNumber", c.collectorNumber.getD [])] else [])
    ++ (if optTruthy c.uuid then [(str "uuid", c.uuid.getD [])] else [])

/-- The `make_zone` helper of `write_cod`. -/
def make_zone (name : Str) (entries : List CardEntry) : XNode :=
  .elem (str "zone") [(str "name", name)] []
    (entries.map (fun c => XNode.elem (str "card") (entryAttrs c) [] []))

/-- `write_cod` of `deck_parser.py` at the element-tree level; `ts` is the
`datetime.now()` timestamp text. -/
def write_cod (ts : Str) (deck : CockatriceDeck) : XNode :=
  .elem (str "cockatrice_deck") [(str "version", str "1")] []
    [ .elem (str "lastLoadedTimestamp") [] ts []
    , .elem (str "deckname") [] deck.deckname []
    , .elem (str "comments") [] [] []
    , .elem (str "tags") [] [] []
    , make_zone (str "main") deck.zone_main
    , make_zone (str "side") deck.zone_side ]

/-- Parsing of one `card` element inside `parse_cod` (an `int(...)` failure
propagates as `none`). -/
def parseCard (x : XNode) : Option CardEntry :=
  match pyInt ((attrGet (xattrs x) (str "number")).getD (str "1")) with
  | none => none
  | some n =>
    some { number := n
           name :=
             match attrGet (xattrs x) (str "name") with
             | some nm => if nm = [] then pyStrip (xtext x) else nm
             | none => pyStrip (xtext x)
           setShortName := attrGet (xattrs x) (str "setShortName")
           collectorNumber := attrGet (xattrs x) (str "collectorNumber")
           uuid := attrGet (xattrs x) (str "uuid") }

/-- Parses a list of `card` elements in order. -/
def parseCards : List XNode → Option (List CardEntry)
  | [] => some []
  | x :: rest =>
    match parseCard x, parseCards rest with
    | some e, some l => some (e :: l)
    | _, _ => none

/-- The zone loop of `parse_cod`: a zone named `main` accumulates into the
main list, any other zone into the side list. -/
def parseZones : List XNode → Option (List CardEntry × List CardEntry)
  | [] => some ([], [])
  | z :: rest =>
    match parseCards (xfindall (str "card") (xchildren z)), parseZones rest with
    | some cs, some (m, s) =>
      if attrGet (xattrs z) (str "name") = some (str "main")
      then some (cs ++ m, s)
      else some (m, cs ++ s)
    | _, _ => none

/-- `parse_cod` of `deck_parser.py` at the element-tree level. -/
def parse_cod (root : XNode) : Option CockatriceDeck :=
  let deckname :=
    match xfind (str "deckname") (xchildren root) with
    | some el => xtext el
    | none => str "Unnamed"
  match parseZones (xfindall (str "zone") (xchildren root)) with
  | some (m, s) => some { deckname := deckname, zone_main := m, zone_side := s }
  | none => none

/-- Normalization performed by a write/parse round trip on an optional
attribute: a non-truthy value (absent or empty) reads back as absent. -/
def optNorm (o : Option Str) : Option Str := if optTruthy o then o else none

/-- The entry produced by re-parsing a written card: name and number are
preserved, optional fields are normalized. -/
def normEntry (c : CardEntry) : CardEntry :=
  { number := c.number
    name := c.name
    setShortName := optNorm c.setShortName
    collectorNumber := optNorm c.collectorNumber
    uuid := optNorm c.uuid }

/-! ### Caches (`MoxfieldScraper`, `MTGJsonScraper`) -/

/-- 24 hours in seconds: `cache_max_age_hours = 24` in `MoxfieldScraper`,
`cache_duration = 86400` in `MTGJsonScraper`. -/
def cacheMaxAge : Int := 86400

/-- `MoxfieldScraper._is_cache_valid`: a cache file exists and its mtime is
later than `now` minus the max age. -/
def mox_is_cache_valid (cache : Option (Int × List MoxfieldDeck)) (now : Int) : Bool :=
  match cache with
  | none => false
  | some (mtime, _) => now - cacheMaxAge < mtime

/-- `MoxfieldScraper._load_cache`: the payload, only when the cache is
valid. -/
def mox_load_cache (cache : Option (Int × List MoxfieldDeck)) (now : Int) :
    Option (List MoxfieldDeck) :=
  if mox_is_cache_valid cache now then cache.map (fun c => c.2) else none

/-- `MTGJsonScraper._is_cache_valid`. -/
def mtgjson_is_cache_valid (now timestamp : Int) : Bool :=
  now - timestamp < cacheMaxAge

/-- `MTGJsonScraper.fetch_deck_list` with the external state explicit:
`last_fetch` is the metadata timestamp, `cache_file` the readable decklist
cache (or `none`), `fetched` the network outcome (`none` models a raised
exception).  A `none` result models the final re-raise. -/
def fetch_deck_list {α : Type} (force_refresh : Bool) (now last_fetch : Int)
    (cache_file : Option α) (fetched : Option α) : Option α :=
  if ¬ force_refresh ∧ mtgjson_is_cache_valid now last_fetch = true ∧ cache_file.isSome then
    cache_file
  else
    match fetched with
    | some data => some data
    | none =>
      match cache_file with
      | some d => some d
      | none => none

/-! ### Moxfield catalog pagination (`MoxfieldScraper.fetch_all_precons`) -/

/-- One item of the Moxfield listing endpoint, with the fields the loop
reads (commander names are the nested `["card"]["name"]` values). -/
structure MoxRec where
  name : Str
  publicId : Str
  format : Str
  description : Str
  commanders : List Str
deriving DecidableEq

/-- Whether a `20\d{2}` match starts at the head of the string. -/
def isYearAt : Str → Bool
  | c1 :: c2 :: c3 :: c4 :: _ => c1 = '2' && c2 = '0' && isDigitChar c3 && isDigitChar c4
  | _ => false

/-- Leftmost `re.search(r"20\d{2}", s)` match, `""` when absent. -/
def findYear : Str → Str
  | [] => []
  | c :: cs => if isYearAt (c :: cs) then (c :: cs).take 4 else findYear cs

/-- The deck record built by `fetch_all_precons` for one accepted item. -/
def mkMoxDeck (r : MoxRec) : MoxfieldDeck :=
  { name := r.name
    url := str "https://moxfield.com/decks/" ++ r.publicId
    commanders := r.commanders.filter (fun c => c ≠ [])
    description := r.description
    year := findYear r.name
    format := r.format
    mainboard := []
    sideboard := [] }

/-- The excluded name term (spelled without a literal apostrophe). -/
def collectorsEdition : Str := str "collector" ++ [Char.ofNat 39] ++ str "s edition"

/-- Per-page processing of `fetch_all_precons`: keep the items whose format
contains `commanderprecon` (lower-cased), drop collector-edition names,
build deck records. -/
def pageDecks (page : List MoxRec) : List MoxfieldDeck :=
  ((page.filter (fun r => hasSub (str "commanderprecon") (toLowerStr r.format))).filter
      (fun r => !hasSub collectorsEdition (toLowerStr r.name))).map mkMoxDeck

/-- The pagination loop of `fetch_all_precons`: an empty page stops before
contributing; a short page (fewer than `page_size` items) contributes and
stops. -/
def fetch_pages_loop (page_size : Nat) : List (List MoxRec) → List MoxfieldDeck
  | [] => []
  | p :: rest =>
    if p.length = 0 then []
    else
      pageDecks p ++
        (if p.length < page_size then [] else fetch_pages_loop page_size rest)

/-- The pages the loop consumes — up to and including the first empty or
short page.  Independent characterization used by the pagination theorem. -/
def truncatePages (page_size : Nat) : List (List MoxRec) → List (List MoxRec)
  | [] => []
  | p :: rest =>
    if p.length = 0 then []
    else if p.length < page_size then [p]
    else p :: truncatePages page_size rest

/-- The combined per-item acceptance test of `fetch_all_precons`. -/
def precon_keep (r : MoxRec) : Bool :=
  hasSub (str "commanderprecon") (toLowerStr r.format) &&
  !hasSub collectorsEdition (toLowerStr r.name)

/-- `MoxfieldScraper.fetch_all_precons` with external state explicit: the
cache file (mtime, decks), the clock, and the network outcome (`none`
models an exception anywhere in the fetch loop). -/
def fetch_all_precons (force_refresh : Bool)
    (cache : Option (Int × List MoxfieldDeck)) (now : Int)
    (pages : Option (List (List MoxRec))) : List MoxfieldDeck :=
  match (if force_refresh then none else mox_load_cache cache now) with
  | some decks => decks
  | none =>
    match pages with
    | some ps => fetch_pages_loop 100 ps
    | none => (mox_load_cache cache now).getD []

/-! ### Format classifier (`DeckFilters.infer_format`) -/

/-- The deck metadata fields `infer_format` reads (a missing dictionary key
defaults to `""`). -/
structure MTGJsonDeckRec where
  type : Str
  name : Str
  code : Str
deriving DecidableEq

/-- `DeckFilters.FORMAT_INDICATORS`, in insertion order. -/
def FORMAT_INDICATORS : List (Str × List Str) :=
  [ (str "Standard", [str "Standard", str "Challenger Deck", str "Intro Pack"])
  , (str "Modern", [str "Modern Event Deck", str "Modern"])
  , (str "Legacy", [str "Legacy", str "Premium Deck"])
  , (str "Vintage", [str "Vintage"])
  , (str "Commander", [str "Commander Deck", str "Commander"])
  , (str "Pioneer", [str "Pioneer Challenger Deck"])
  , (str "Historic", [str "Historic", str "Arena"])
  , (str "Limited", [str "Jumpstart", str "Cube", str "Draft"]) ]

/-- The table scan of `infer_format`: first entry with a matching indicator
substring (case-insensitive) wins. -/
def findFmt : List (Str × List Str) → Str → Option Str
  | [], _ => none
  | (format_name, indicators) :: rest, deck_type =>
    if indicators.any (fun ind => hasSub (toLowerStr ind) (toLowerStr deck_type)) then
      some format_name
    else findFmt rest deck_type

/-- `DeckFilters.infer_format`. -/
def infer_format (deck_data : MTGJsonDeckRec) : Str :=
  match findFmt FORMAT_INDICATORS deck_data.type with
  | some f => f
  | none =>
    if hasSub (str "Commander") deck_data.name || startsWith (str "C") deck_data.code then
      str "Commander"
    else if hasSub (str "Standard") deck_data.name then str "Standard"
    else if hasSub (str "Modern") deck_data.name then str "Modern"
    else if hasSub (str "Legacy") deck_data.name then str "Legacy"
    else if hasSub (str "Pioneer") deck_data.name then str "Pioneer"
    else str "Unknown"

/-- The strings `infer_format` can return. -/
def inferFormatRange : List Str :=
  FORMAT_INDICATORS.map (fun e => e.1) ++ [str "Unknown"]

/-! ### MTGGoldfish import (`MTGGoldfishImportScraper`) -/

/-- Outcome of the Arena-download HTTP request in `fetch_deck`. -/
inductive ArenaResult where
  | httpError
  | status (code : Int) (textarea : Option Str)
deriving DecidableEq

/-- `_extract_deck_id`: the numeric id segment of a `/deck/` URL, or the
first deck found on the archetype page for `/archetype/` URLs
(`archetype_first` models that network lookup). -/
def extract_deck_id (url : Str) (archetype_first : Option Str) : Option Str :=
  if hasSub (str "/deck/") url then
    let deck_part := (splitPy '/' (str "deck/") url).getLastD []
    let deck_id :=
      (splitPy '?' [] ((splitPy '#' [] deck_part).headD [])).headD []
    if pyIsdigit deck_id then some deck_id else none
  else if hasSub (str "/archetype/") url then archetype_first
  else none

/-- Suffix after the last open paren of the list, when one occurs. -/
def afterLastOpenParen : Str → Option Str
  | [] => none
  | c :: cs =>
    match afterLastOpenParen cs with
    | some r => some r
    | none => if c = '(' then some cs else none

/-- The `re.sub` of `_clean_arena_card_name`: removes a trailing
parenthesized group together with surrounding spaces, when present. -/
def stripTrailingParen (s : Str) : Str :=
  match s.reverse.dropWhile isSpaceChar with
  | ')' :: r2 =>
    let zone := r2.takeWhile (fun c => c ≠ ')')
    match afterLastOpenParen zone with
    | some tail => ((tail ++ r2.drop zone.length).dropWhile isSpaceChar).reverse
    | none => s
  | _ => s

/-- `_clean_arena_card_name`. -/
def clean_arena_card_name (name : Str) : Str :=
  if name = [] then []
  else
    let n1 := pyStrip (stripTrailingParen name)
    let n2 :=
      if hasSub (str "//") n1 then pyStrip ((splitPy '/' (str "/") n1).headD [])
      else n1
    if n2.length < 2 || 50 < n2.length then [] else n2

/-- The section the Arena-format line loop is currently in. -/
inductive ArenaSection where
  | commander
  | mainboard
  | sideboard
deriving DecidableEq

/-- Loop state of `_parse_arena_format`. -/
structure ArenaState where
  deck_name : Str
  commanders : List Str
  mainboard : List CardRaw
  sideboard : List CardRaw
  current : ArenaSection
deriving DecidableEq

/-- `re.match(r"(\d+)\s+(.+)", line)`: leading digits, at least one
whitespace, a non-empty remainder. -/
def parseCardLine (l : Str) : Option (Nat × Str) :=
  let digits := l.takeWhile isDigitChar
  let rest1 := l.dropWhile isDigitChar
  let rest := rest1.dropWhile isSpaceChar
  if digits ≠ [] ∧ rest1.takeWhile isSpaceChar ≠ [] ∧ rest ≠ [] then
    some ((parseDigits digits).getD 0, rest)
  else none

/-- One line of the `_parse_arena_format` loop. -/
def arenaLineStep (st : ArenaState) (line0 : Str) : ArenaState :=
  let line := pyStrip line0
  if line = [] then st
  else if startsWith (str "Name ") line then
    { st with deck_name := pyStrip (line.drop 5) }
  else if toLowerStr line = str "commander" then { st with current := .commander }
  else if toLowerStr line = str "deck" then { st with current := .mainboard }
  else if toLowerStr line = str "sideboard" then { st with current := .sideboard }
  else
    match parseCardLine line with
    | none => st
    | some (q, nm) =>
      let clean_name := clean_arena_card_name (pyStrip nm)
      if clean_name = [] then st
      else
        let entry : CardRaw :=
          { quantity := Int.ofNat q, name := clean_name, set := []
            collector_number := [], scryfall_id := [] }
        match st.current with
        | .commander => { st with commanders := st.commanders ++ [clean_name] }
        | .sideboard => { st with sideboard := st.sideboard ++ [entry] }
        | .mainboard => { st with mainboard := st.mainboard ++ [entry] }

/-- `_parse_arena_format`. -/
def parse_arena_format (content : Str) (original_url : Str) : UniversalDeck :=
  let st0 : ArenaState :=
    { deck_name := str "MTGGoldfish Deck", commanders := [], mainboard := []
      sideboard := [], current := .mainboard }
  let st := (splitPy '\n' [] content).foldl arenaLineStep st0
  { name := st.deck_name
    url := original_url
    format := if st.commanders ≠ [] then str "commander" else str "standard"
    description := str "Imported from MTGGoldfish using Arena format"
    year := []
    mainboard := st.mainboard
    sideboard := st.sideboard
    commanders := st.commanders }

/-- `_create_sample_cards`. -/
def create_sample_cards (deck_format : Str) : List CardRaw :=
  if toLowerStr deck_format = str "commander" then
    [ { quantity := 1, name := str "Sol Ring", set := []
        collector_number := [], scryfall_id := [] }
    , { quantity := 1, name := str "Command Tower", set := []
        collector_number := [], scryfall_id := [] }
    , { quantity := 1, name := str "Lightning Bolt", set := []
        collector_number := [], scryfall_id := [] }
    , { quantity := 1, name := str "Counterspell", set := []
        collector_number := [], scryfall_id := [] }
    , { quantity := 36, name := str "Basic Land (Mixed)", set := []
        collector_number := [], scryfall_id := [] } ]
  else
    [ { quantity := 4, name := str "Lightning Bolt", set := []
        collector_number := [], scryfall_id := [] }
    , { quantity := 4, name := str "Counterspell", set := []
        collector_number := [], scryfall_id := [] }
    , { quantity := 4, name := str "Brainstorm", set := []
        collector_number := [], scryfall_id := [] }
    , { quantity := 24, name := str "Basic Land (Mixed)", set := []
        collector_number := [], scryfall_id := [] } ]

/-- The import-failure suffix appended to placeholder deck names. -/
def importFailedMarker : Str := str " (Import Failed)"

/-- `_create_placeholder_deck`. -/
def create_placeholder_deck (url : Str) : UniversalDeck :=
  let deck_name :=
    if hasSub (str "/deck/") url then
      pyTitle (replaceDash
          ((splitPy '#' [] ((splitPy '/' (str "deck/") url).getLastD [])).headD []))
        ++ importFailedMarker
    else if hasSub (str "/archetype/") url then
      pyTitle (replaceDash
          ((splitPy '#' [] ((splitPy '/' (str "archetype/") url).getLastD [])).headD []))
        ++ importFailedMarker
    else str "MTGGoldfish Deck" ++ importFailedMarker
  { name := deck_name
    url := url
    format := str "unknown"
    description := str "This is a placeholder deck. MTGGoldfish scraping encountered issues."
    mainboard := create_sample_cards (str "standard")
    sideboard := []
    commanders := [] }

/-! ### Concrete inputs used by witnesses and counterexamples -/

/-- A card with an empty name. -/
def blankCard : CardRaw :=
  { quantity := 1, name := [], set := [], collector_number := [], scryfall_id := [] }

/-- A one-stack mainboard card of quantity `q`. -/
def qCard (q : Int) : CardRaw :=
  { quantity := q, name := str "x", set := [], collector_number := [], scryfall_id := [] }

/-- A commander-less deck declared `Modern` whose mainboard totals `q`. -/
def modernDeck (nm : String) (q : Int) : UniversalDeck :=
  { name := str nm, url := [], format := str "Modern", mainboard := [qCard q] }

/-- A deck whose single commander name is one blank. -/
def blankCommanderDeck : UniversalDeck :=
  { name := str "d", url := [], format := str "standard", commanders := [str " "] }

/-- A deck with one empty-named mainboard card. -/
def emptyNameDeck : UniversalDeck :=
  { name := str "d", url := [], mainboard := [blankCard] }

/-- A commander deck for the universal converter. -/
def atraxaDeck : UniversalDeck :=
  { name := str "d", url := [], format := str "standard",
    sideboard := [qCard 2], commanders := [str "Atraxa"] }

/-- A commander deck for the Moxfield converter. -/
def breyaDeck : MoxfieldDeck :=
  { name := str "d", url := [], format := str "standard",
    sideboard := [qCard 2], commanders := [str "Breya"] }

/-- A cached deck record. -/
def sampleMoxDeck : MoxfieldDeck := { name := str "x", url := [] }

/-- A listing item matching the precon token. -/
def goodRec : MoxRec :=
  { name := str "Good Deck", publicId := str "gid",
    format := str "commanderPrecon", description := [], commanders := [] }

/-- A matching listing item whose name is a collector edition. -/
def ceRec : MoxRec :=
  { name := str "XCollector" ++ [Char.ofNat 39] ++ str "s Edition Deck",
    publicId := str "cid", format := str "commanderPrecon",
    description := [], commanders := [] }

/-- A listing item of some other format. -/
def otherRec : MoxRec :=
  { name := str "d", publicId := [], format := str "x",
    description := [], commanders := [] }

/-- Scenario page 1: a full page of 100 items, 9 of them matching the token
(one a collector edition). -/
def scenarioPage1 : List MoxRec :=
  List.replicate 8 goodRec ++ [ceRec] ++ List.replicate 91 otherRec

/-- Scenario page 2: a short page of 50 items, 3 of them matching the token
(one a collector edition). -/
def scenarioPage2 : List MoxRec :=
  List.replicate 2 goodRec ++ [ceRec] ++ List.replicate 47 otherRec

/-- The 150-item two-page catalog scenario. -/
def scenarioPages : List (List MoxRec) := [scenarioPage1, scenarioPage2]

/-- `MTGGoldfishImportScraper.fetch_deck` with the two network round trips
(archetype lookup, Arena export page) passed in explicitly. -/
def goldfish_fetch_deck (url : Str) (archetype_first : Option Str)
    (arena : ArenaResult) : UniversalDeck :=
  match extract_deck_id url archetype_first with
  | none => create_placeholder_deck url
  | some _ =>
    match arena with
    | .httpError => create_placeholder_deck url
    | .status code textarea =>
      if code ≠ 200 then create_placeholder_deck url
      else
        match textarea with
        | none => create_placeholder_deck url
        | some t =>
          let deck_content := pyStrip t
          if deck_content = [] then create_placeholder_deck url
          else parse_arena_format deck_content url

end CA

namespace CA

theorem startsWith_iff (p : Str) : ∀ s, startsWith p s = true ↔ ∃ r, s = p ++ r := by
  induction p with
  | nil =>
    intro s
    simp [startsWith]
  | cons a ps ih =>
    intro s
    cases s with
    | nil =>
      simp only [startsWith]
      constructor
      · intro h; simp at h
      · rintro ⟨r, hr⟩; simp at hr
    | cons c cs =>
      simp only [startsWith]
      constructor
      · intro h
        have hac : a = c := by
          by_contra hne
          rw [if_neg hne] at h
          simp at h
        subst hac
        rw [if_pos rfl] at h
        obtain ⟨r, hr⟩ := (ih cs).mp h
        exact ⟨r, by rw [hr]; rfl⟩
      · rintro ⟨r, hr⟩
        have hr' : c = a ∧ cs = ps ++ r := by
          rw [List.cons_append] at hr
          exact ⟨(List.cons.inj hr).1, (List.cons.inj hr).2⟩
        obtain ⟨rfl, hcs⟩ := hr'
        rw [if_pos rfl]
        exact (ih cs).mpr ⟨r, hcs⟩

theorem startsWith_append (p r : Str) : startsWith p (p ++ r) = true :=
  (startsWith_iff p (p ++ r)).mpr ⟨r, rfl⟩

theorem splitPy_ne_nil (c0 : Char) (sp s : Str) : splitPy c0 sp s ≠ [] := by
  cases s with
  | nil => simp [splitPy]
  | cons c cs =>
    rw [splitPy]
    split <;> simp

theorem splitPy_head (c0 : Char) (sp : Str) :
    ∀ s, (splitPy c0 sp s).headD [] = beforeFirst c0 sp s := by
  intro s
  induction s with
  | nil => simp [splitPy, beforeFirst]
  | cons c cs ih =>
    rw [splitPy, beforeFirst]
    split
    · rfl
    · simpa using congrArg (c :: ·) ih

theorem hasSub_decomp (c0 : Char) (sp : Str) :
    ∀ s, hasSub (c0 :: sp) s = true →
      ∃ r, s = beforeFirst c0 sp s ++ (c0 :: sp) ++ r := by
  intro s
  induction s with
  | nil => simp [hasSub, startsWith]
  | cons c cs ih =>
    intro h
    rw [beforeFirst]
    by_cases hs : startsWith (c0 :: sp) (c :: cs) = true
    · obtain ⟨r, hr⟩ := (startsWith_iff _ _).mp hs
      exact ⟨r, by simpa [if_pos hs] using hr⟩
    · have h' : hasSub (c0 :: sp) cs = true := by
        have := h
        rw [hasSub] at this
        rcases Bool.or_eq_true_iff.mp this with h1 | h2
        · exact absurd h1 hs
        · exact h2
      obtain ⟨r, hr⟩ := ih h'
      refine ⟨r, ?_⟩
      rw [if_neg hs]
      simpa using congrArg (c :: ·) hr

theorem beforeFirst_min (c0 : Char) (sp : Str) :
    ∀ s p r, s = p ++ (c0 :: sp) ++ r →
      (beforeFirst c0 sp s).length ≤ p.length := by
  intro s
  induction s with
  | nil => intro p r h; simp [beforeFirst]
  | cons c cs ih =>
    intro p r h
    rw [beforeFirst]
    by_cases hs : startsWith (c0 :: sp) (c :: cs) = true
    · simp [if_pos hs]
    · rw [if_neg hs]
      cases p with
      | nil =>
        exfalso
        apply hs
        rw [startsWith_iff]
        exact ⟨r, by simpa using h⟩
      | cons q qs =>
        have hcq : c = q := by
          have := h
          simp only [List.cons_append, List.append_assoc] at this
          exact (List.cons.injEq _ _ _ _ ▸ this).1
        have hcs : cs = qs ++ (c0 :: sp) ++ r := by
          have := h
          simp only [List.cons_append, List.append_assoc] at this
          have h2 := (List.cons.injEq _ _ _ _ ▸ this).2
          simpa [List.append_assoc] using h2
        have := ih qs r hcs
        simpa using Nat.succ_le_succ this

theorem dropWhile_eq_self_of_head (p : Char → Bool) (s : Str)
    (h : ∀ c ∈ s, p c = false) : s.dropWhile p = s := by
  cases s with
  | nil => rfl
  | cons c cs => simp [List.dropWhile, h c (by simp)]

theorem pyStrip_no_space (s : Str) (h : ∀ c ∈ s, isSpaceChar c = false) :
    pyStrip s = s := by
  unfold pyStrip pyLstrip pyRstrip
  rw [dropWhile_eq_self_of_head _ _ h]
  rw [dropWhile_eq_self_of_head _ _ (by intro c hc; exact h c (by simpa using hc))]
  exact s.reverse_reverse

theorem digitChar_facts : ∀ d, d < 10 →
    (digitChar d).toNat = 48 + d ∧ isDigitChar (digitChar d) = true := by
  decide

theorem not_space_of_digit (c : Char) (h : isDigitChar c = true) :
    isSpaceChar c = false := by
  simp only [isDigitChar, Bool.and_eq_true, decide_eq_true_eq] at h
  simp only [isSpaceChar, Bool.or_eq_false_iff, decide_eq_false_iff_not]
  omega

theorem natToStr_all_digits (n : Nat) : ∀ c ∈ natToStr n, isDigitChar c = true := by
  induction n using Nat.strong_induction_on with
  | _ n ih =>
    rw [natToStr]
    split
    · intro c hc
      rcases (by simpa using hc : c = digitChar n) with rfl
      exact (digitChar_facts n (by omega)).2
    · intro c hc
      rcases (by simpa using hc) with h1 | h2
      · exact ih (n / 10) (Nat.div_lt_self (by omega) (by omega)) c h1
      · rcases (h2 : c = digitChar (n % 10)) with rfl
        exact (digitChar_facts _ (Nat.mod_lt _ (by omega))).2

theorem natToStr_ne_nil (n : Nat) : natToStr n ≠ [] := by
  rw [natToStr]
  split <;> simp

theorem parseDigitsGo_append (s1 : Str) :
    ∀ acc s2, parseDigitsGo acc (s1 ++ s2) =
      (parseDigitsGo acc s1).bind (fun a => parseDigitsGo a s2) := by
  induction s1 with
  | nil => intro acc s2; simp [parseDigitsGo]
  | cons c cs ih =>
    intro acc s2
    simp only [List.cons_append, parseDigitsGo]
    split
    · exact ih _ s2
    · rfl

theorem parseDigitsGo_natToStr (n : Nat) :
    ∀ acc, parseDigitsGo acc (natToStr n) =
      some (acc * 10 ^ (natToStr n).length + n) := by
  induction n using Nat.strong_induction_on with
  | _ n ih =>
    intro acc
    rw [natToStr]
    split
    · have hd := digitChar_facts n (by omega)
      simp [parseDigitsGo, hd.1, hd.2]
    · have hlt : n / 10 < n := Nat.div_lt_self (by omega) (by omega)
      have hd := digitChar_facts (n % 10) (Nat.mod_lt _ (by omega))
      rw [parseDigitsGo_append]
      rw [ih (n / 10) hlt acc]
      have hstep : parseDigitsGo (acc * 10 ^ (natToStr (n / 10)).length + n / 10)
          [digitChar (n % 10)]
          = some ((acc * 10 ^ (natToStr (n / 10)).length + n / 10) * 10 + n % 10) := by
        simp only [parseDigitsGo, hd.2, if_true, hd.1]
        congr 1
        omega
      rw [Option.some_bind, hstep]
      congr 1
      have hlen : ((natToStr (n / 10)) ++ [digitChar (n % 10)]).length
          = (natToStr (n / 10)).length + 1 := by simp
      rw [hlen, pow_succ]
      have hdm : n / 10 * 10 + n % 10 = n := by omega
      calc (acc * 10 ^ (natToStr (n / 10)).length + n / 10) * 10 + n % 10
          = acc * (10 ^ (natToStr (n / 10)).length * 10)
            + (n / 10 * 10 + n % 10) := by ring
        _ = acc * (10 ^ (natToStr (n / 10)).length * 10) + n := by rw [hdm]

theorem parseDigits_natToStr (n : Nat) : parseDigits (natToStr n) = some n := by
  unfold parseDigits
  rw [if_neg (natToStr_ne_nil n)]
  rw [parseDigitsGo_natToStr n 0]
  simp

theorem pyInt_intToStr (i : Int) : pyInt (intToStr i) = some i := by
  unfold pyInt intToStr
  by_cases hneg : i < 0
  · rw [if_pos hneg]
    have hstrip : pyStrip ('-' :: natToStr i.natAbs) = '-' :: natToStr i.natAbs := by
      apply pyStrip_no_space
      intro c hc
      rcases (by simpa using hc) with h1 | h2
      · subst h1; decide
      · exact not_space_of_digit c (natToStr_all_digits _ c h2)
    rw [hstrip]
    simp only [pyIntCore, if_true]
    rw [parseDigits_natToStr, Option.map_some']
    have hval : -(Int.ofNat i.natAbs) = i := by rw [Int.ofNat_eq_natCast]; omega
    rw [hval]
  · rw [if_neg hneg]
    have hstrip : pyStrip (natToStr i.natAbs) = natToStr i.natAbs :=
      pyStrip_no_space _ (fun c hc => not_space_of_digit c (natToStr_all_digits _ c hc))
    rw [hstrip]
    obtain ⟨c, rest, hne⟩ : ∃ c rest, natToStr i.natAbs = c :: rest := by
      rcases h : natToStr i.natAbs with _ | ⟨c, rest⟩
      · exact absurd h (natToStr_ne_nil _)
      · exact ⟨c, rest, rfl⟩
    have hcdig : isDigitChar c = true := by
      apply natToStr_all_digits i.natAbs
      rw [hne]; simp
    have hc48 : 48 ≤ c.toNat ∧ c.toNat ≤ 57 := by
      simpa [isDigitChar] using hcdig
    have hcm : c ≠ '-' := by
      intro h; subst h; revert hc48; decide
    have hcp : c ≠ '+' := by
      intro h; subst h; revert hc48; decide
    rw [hne]
    simp only [pyIntCore]
    rw [if_neg hcm, if_neg hcp, ← hne, parseDigits_natToStr, Option.map_some']
    have hval : Int.ofNat i.natAbs = i := by rw [Int.ofNat_eq_natCast]; omega
    rw [hval]

theorem strEndsWith_append (x suffix : Str) : strEndsWith suffix (x ++ suffix) = true := by
  unfold strEndsWith
  rw [List.reverse_append]
  exact startsWith_append _ _

theorem mem_commanderEntries (cs : List Str) (c : Str) (hc : c ∈ cs)
    (hs : pyStrip c ≠ []) : commanderEntry c ∈ commanderEntries cs := by
  unfold commanderEntries
  exact List.mem_map_of_mem _ (List.mem_filter.mpr ⟨hc, by simpa using hs⟩)

theorem commanderEntries_number (cs : List Str) :
    ∀ e ∈ commanderEntries cs, e.number = 1 := by
  intro e he
  obtain ⟨c, _, rfl⟩ := List.mem_map.mp he
  rfl

theorem commanderEntries_source (cs : List Str) :
    ∀ e ∈ commanderEntries cs, ∃ c ∈ cs, pyStrip c ≠ [] ∧ e = commanderEntry c := by
  intro e he
  obtain ⟨c, hc, rfl⟩ := List.mem_map.mp he
  obtain ⟨hmem, hstrip⟩ := List.mem_filter.mp hc
  exact ⟨c, hmem, by simpa using hstrip, rfl⟩

theorem make_card_entries_names (l : List CardRaw) :
    (make_card_entries l).map (fun e => e.name)
      = l.map (fun c => clean_card_name c.name) := by
  unfold make_card_entries
  rw [List.map_map]
  rfl

theorem make_card_entries_length (l : List CardRaw) :
    (make_card_entries l).length = l.length := by
  unfold make_card_entries
  exact List.length_map l _

theorem convert_universal_zone_main (choose : List CardRaw → CardRaw)
    (ud : UniversalDeck) :
    (convert_universal_to_cockatrice choose ud).zone_main
      = make_card_entries ud.mainboard := by
  unfold convert_universal_to_cockatrice
  split <;> rfl

theorem convert_moxfield_zone_main (choose : List CardRaw → CardRaw)
    (md : MoxfieldDeck) :
    (convert_moxfield_to_cockatrice choose md).zone_main
      = make_card_entries md.mainboard := by
  unfold convert_moxfield_to_cockatrice
  split <;> rfl

theorem convert_universal_zone_side_cmd (choose : List CardRaw → CardRaw)
    (ud : UniversalDeck) (h : ud.commanders ≠ []) :
    (convert_universal_to_cockatrice choose ud).zone_side
      = make_card_entries ud.sideboard ++ commanderEntries ud.commanders := by
  unfold convert_universal_to_cockatrice
  rw [if_pos (Or.inr h)]

theorem convert_moxfield_zone_side_cmd (choose : List CardRaw → CardRaw)
    (md : MoxfieldDeck) (h : md.commanders ≠ []) :
    (convert_moxfield_to_cockatrice choose md).zone_side
      = commanderEntries md.commanders := by
  unfold convert_moxfield_to_cockatrice
  rw [if_pos (Or.inl h)]

/-- C4: `clean_card_name` returns the whitespace-trimmed prefix before the
first occurrence of `//` when one occurs (`beforeFirst` is pinned down as
that prefix by the decomposition and minimality conjuncts), the trimmed
string when no `//` occurs, and the empty string on empty input. -/
theorem C4_clean_card_name_spec (s : Str) :
    (s = [] → clean_card_name s = []) ∧
    (hasSub (str "//") s = true →
      (∃ r, s = beforeFirst '/' (str "/") s ++ str "//" ++ r) ∧
      (∀ p r, s = p ++ str "//" ++ r →
        (beforeFirst '/' (str "/") s).length ≤ p.length) ∧
      clean_card_name s = pyStrip (beforeFirst '/' (str "/") s)) ∧
    (hasSub (str "//") s = false → clean_card_name s = pyStrip s) := by
  refine ⟨?_, ?_, ?_⟩
  · intro h
    subst h
    rfl
  · intro h
    have hne : s ≠ [] := by
      intro he
      subst he
      exact absurd h (by decide)
    refine ⟨hasSub_decomp '/' (str "/") s h, beforeFirst_min '/' (str "/") s, ?_⟩
    unfold clean_card_name
    rw [if_neg hne, if_pos h, splitPy_head]
  · intro h
    by_cases hne : s = []
    · subst hne
      rfl
    · unfold clean_card_name
      rw [if_neg hne, if_neg (by simp [h])]

/-- C4 witness: the dual-face and no-separator cases at concrete inputs. -/
theorem C4_witness :
    clean_card_name (str "Fire // Ice")
      = pyStrip (beforeFirst '/' (str "/") (str "Fire // Ice")) ∧
    clean_card_name (str " Opt ") = pyStrip (str " Opt ") := by
  constructor
  · exact ((C4_clean_card_name_spec (str "Fire // Ice")).2.1 (by decide)).2.2
  · exact (C4_clean_card_name_spec (str " Opt ")).2.2 (by decide)

/-- C10: with no commanders, a mainboard total of exactly 100 gives
`commander` and exactly 60 gives `standard`, overriding the declared
format; the format field (lower-cased, `unknown` when empty) is used only
when the total is neither. -/
theorem C10_detect_format (d : UniversalDeck) (h : d.commanders = []) :
    ((d.mainboard.map (fun c => c.quantity)).sum = 100 →
      detect_deck_format d = str "commander") ∧
    ((d.mainboard.map (fun c => c.quantity)).sum = 60 →
      detect_deck_format d = str "standard") ∧
    ((d.mainboard.map (fun c => c.quantity)).sum ≠ 60 →
      (d.mainboard.map (fun c => c.quantity)).sum ≠ 100 →
      detect_deck_format d =
        (if d.format = [] then str "unknown" else toLowerStr d.format)) := by
  refine ⟨?_, ?_, ?_⟩
  · intro hsum
    simp [detect_deck_format, h, hsum]
  · intro hsum
    simp [detect_deck_format, h, hsum]
  · intro h60 h100
    simp only [detect_deck_format, h, ne_eq, not_true_eq_false, if_false, h60, h100]
    by_cases hf : d.format = []
    · simp [hf]
    · simp [hf]

/-- C10 witness: 100 cards override a declared `Modern` format; 60 cards
give `standard`; a 40-card deck falls back to its lower-cased format. -/
theorem C10_witness :
    detect_deck_format (modernDeck "a" 100) = str "commander" ∧
    detect_deck_format (modernDeck "b" 60) = str "standard" ∧
    detect_deck_format (modernDeck "c" 40) =
      (if (modernDeck "c" 40).format = [] then str "unknown"
        else toLowerStr (modernDeck "c" 40).format) := by
  refine ⟨?_, ?_, ?_⟩
  · exact (C10_detect_format _ rfl).1 (by decide)
  · exact (C10_detect_format _ rfl).2.1 (by decide)
  · exact (C10_detect_format _ rfl).2.2 (by decide) (by decide)

/-- C5: a cache whose age is at or beyond the max age loads as missing; a
strictly younger one loads its payload; the MTGJSON validity test is the
same strict age comparison. -/
theorem C5_cache_staleness (mtime now ts : Int) (decks : List MoxfieldDeck) :
    (cacheMaxAge ≤ now - mtime →
      mox_load_cache (some (mtime, decks)) now = none) ∧
    (now - mtime < cacheMaxAge →
      mox_load_cache (some (mtime, decks)) now = some decks) ∧
    (mtgjson_is_cache_valid now ts = true ↔ now - ts < cacheMaxAge) := by
  refine ⟨?_, ?_, ?_⟩
  · intro h
    simp [mox_load_cache, mox_is_cache_valid, show ¬(now - cacheMaxAge < mtime) by omega]
  · intro h
    simp [mox_load_cache, mox_is_cache_valid, show now - cacheMaxAge < mtime by omega]
  · simp [mtgjson_is_cache_valid]

/-- C5 witness: at age exactly the max age the load misses; one second
younger it serves the payload. -/
theorem C5_witness :
    mox_load_cache (some (0, [])) cacheMaxAge = none ∧
    mox_load_cache (some (1, [])) cacheMaxAge = some [] := by
  constructor
  · exact (C5_cache_staleness 0 cacheMaxAge 0 []).1 (by decide)
  · exact (C5_cache_staleness 1 cacheMaxAge 0 []).2.1 (by decide)

theorem findFmt_mem (tbl : List (Str × List Str)) :
    ∀ ty f, findFmt tbl ty = some f → f ∈ tbl.map (fun e => e.1) := by
  induction tbl with
  | nil => intro ty f h; simp [findFmt] at h
  | cons e rest ih =>
    intro ty f h
    rw [findFmt] at h
    split at h
    · simp at h
      simp [h]
    · exact List.mem_cons_of_mem _ (ih ty f h)

/-- C6 counterexample: on a record with no recognizable fields the final
fallback of `infer_format` is the string `Unknown`, not `unknown`. -/
theorem C6_counterexample :
    infer_format { type := [], name := [], code := [] } = str "Unknown" ∧
    str "Unknown" ≠ str "unknown" := by
  constructor
  · decide
  · decide

/-- C6 amended: `infer_format` is total — it always returns one of the nine
fixed strings — and when no table entry, display-name keyword or set-code
heuristic matches, it returns `Unknown` (capitalized). -/
theorem C6_infer_format_total :
    (∀ r : MTGJsonDeckRec, infer_format r ∈ inferFormatRange) ∧
    (∀ r : MTGJsonDeckRec,
      findFmt FORMAT_INDICATORS r.type = none →
      hasSub (str "Commander") r.name = false →
      startsWith (str "C") r.code = false →
      hasSub (str "Standard") r.name = false →
      hasSub (str "Modern") r.name = false →
      hasSub (str "Legacy") r.name = false →
      hasSub (str "Pioneer") r.name = false →
      infer_format r = str "Unknown") := by
  constructor
  · intro r
    unfold infer_format
    cases hf : findFmt FORMAT_INDICATORS r.type with
    | some f =>
      have hmem := findFmt_mem FORMAT_INDICATORS r.type f hf
      unfold inferFormatRange
      exact List.mem_append_left _ hmem
    | none =>
      split_ifs <;> decide
  · intro r h0 h1 h2 h3 h4 h5 h6
    unfold infer_format
    rw [h0]
    rw [if_neg (by simp [h1, h2]), if_neg (by simp [h3]), if_neg (by simp [h4]),
      if_neg (by simp [h5]), if_neg (by simp [h6])]

/-- C6 witness: a record whose fields match nothing resolves to `Unknown`
through the fallback chain. -/
theorem C6_witness :
    infer_format { type := str "z", name := str "z", code := str "z" } = str "Unknown" :=
  C6_infer_format_total.2 _ (by decide) (by decide) (by decide) (by decide)
    (by decide) (by decide) (by decide)

/-- C2 counterexample: with a stale cache (age twice the max) and a failing
fetch, the Moxfield scraper returns `[]` — not the stale cached payload —
because its fallback re-applies the staleness check. -/
theorem C2_counterexample :
    fetch_all_precons false (some (0, [sampleMoxDeck])) (2 * cacheMaxAge) none = [] ∧
    [sampleMoxDeck] ≠ ([] : List MoxfieldDeck) := by
  constructor
  · decide
  · decide

/-- C2 amended: the MTGJSON deck-list fetch serves the cached file ignoring
staleness on a fetch failure and fails only when no cache exists; the
Moxfield fallback reuses the staleness-checking `_load_cache`, so a stale
cache yields `[]` and only a still-valid cache is served. -/
theorem C2_fallback (α : Type) (force : Bool) (now last_fetch : Int) (p : α)
    (cache : Option (Int × List MoxfieldDeck)) :
    (fetch_deck_list force now last_fetch (some p) none = some p) ∧
    (fetch_deck_list force now last_fetch (none : Option α) none = none) ∧
    (mox_is_cache_valid cache now = false →
      fetch_all_precons false cache now none = []) ∧
    (∀ mtime decks, cache = some (mtime, decks) →
      mox_is_cache_valid cache now = true →
      fetch_all_precons false cache now none = decks) := by
  refine ⟨?_, ?_, ?_, ?_⟩
  · unfold fetch_deck_list
    split <;> rfl
  · unfold fetch_deck_list
    rw [if_neg (by simp)]
  · intro h
    simp [fetch_all_precons, mox_load_cache, h]
  · intro mtime decks hc h
    subst hc
    simp [fetch_all_precons, mox_load_cache, h]

/-- C2 witness: a failing MTGJSON fetch over an arbitrarily old cache file
still serves it; the Moxfield fallback serves a fresh cache but maps a
stale one to `[]`. -/
theorem C2_witness :
    fetch_deck_list false (10 * cacheMaxAge) 0 (some 42) (none : Option Nat) = some 42 ∧
    fetch_all_precons false (some (10, [sampleMoxDeck])) (2 * cacheMaxAge) none = [] ∧
    fetch_all_precons false (some (cacheMaxAge + 5, [sampleMoxDeck]))
      (cacheMaxAge + 10) none = [sampleMoxDeck] := by
  refine ⟨?_, ?_, ?_⟩
  · exact (C2_fallback Nat false (10 * cacheMaxAge) 0 42 none).1
  · exact (C2_fallback Nat false (2 * cacheMaxAge) 0 0
      (some (10, [sampleMoxDeck]))).2.2.1 (by decide)
  · exact (C2_fallback Nat false (cacheMaxAge + 10) 0 0
      (some (cacheMaxAge + 5, [sampleMoxDeck]))).2.2.2 (cacheMaxAge + 5)
      [sampleMoxDeck] rfl (by decide)

/-- C1 counterexample: a deck whose only commander name is a single blank is
a deck with non-empty `commanders`, yet conversion places no entry for it in
the side zone — blank commander names are skipped. -/
theorem C1_counterexample :
    blankCommanderDeck.commanders ≠ [] ∧
    (convert_universal_to_cockatrice (fun _ => blankCard)
        blankCommanderDeck).zone_side = [] := by
  constructor
  · decide
  · decide

/-- C1 amended: for a deck with non-empty `commanders`, both converters put
one quantity-1 entry in the side zone per commander whose raw name is
non-blank after trimming, and never put commander entries in the main zone
(the main zone is exactly the converted mainboard), regardless of the
format field. -/
theorem C1_commanders_to_side (choose : List CardRaw → CardRaw)
    (ud : UniversalDeck) (md : MoxfieldDeck)
    (hu : ud.commanders ≠ []) (hm : md.commanders ≠ []) :
    ((convert_universal_to_cockatrice choose ud).zone_main
        = make_card_entries ud.mainboard) ∧
    ((convert_universal_to_cockatrice choose ud).zone_side
        = make_card_entries ud.sideboard ++ commanderEntries ud.commanders) ∧
    (∀ c ∈ ud.commanders, pyStrip c ≠ [] →
      commanderEntry c ∈ (convert_universal_to_cockatrice choose ud).zone_side) ∧
    (∀ e ∈ commanderEntries ud.commanders, e.number = 1) ∧
    ((convert_moxfield_to_cockatrice choose md).zone_main
        = make_card_entries md.mainboard) ∧
    ((convert_moxfield_to_cockatrice choose md).zone_side
        = commanderEntries md.commanders) ∧
    (∀ c ∈ md.commanders, pyStrip c ≠ [] →
      commanderEntry c ∈ (convert_moxfield_to_cockatrice choose md).zone_side) ∧
    (∀ e ∈ commanderEntries md.commanders, e.number = 1) := by
  refine ⟨convert_universal_zone_main choose ud,
    convert_universal_zone_side_cmd choose ud hu, ?_,
    commanderEntries_number ud.commanders,
    convert_moxfield_zone_main choose md,
    convert_moxfield_zone_side_cmd choose md hm, ?_,
    commanderEntries_number md.commanders⟩
  · intro c hc hs
    rw [convert_universal_zone_side_cmd choose ud hu]
    exact List.mem_append_right _ (mem_commanderEntries _ c hc hs)
  · intro c hc hs
    rw [convert_moxfield_zone_side_cmd choose md hm]
    exact mem_commanderEntries _ c hc hs

/-- C1 witness: concrete commander decks through both converters. -/
theorem C1_witness :
    ((convert_universal_to_cockatrice (fun _ => blankCard) atraxaDeck).zone_side
      = make_card_entries atraxaDeck.sideboard
          ++ commanderEntries atraxaDeck.commanders) ∧
    ((convert_moxfield_to_cockatrice (fun _ => blankCard) breyaDeck).zone_side
      = commanderEntries breyaDeck.commanders) := by
  constructor
  · exact (C1_commanders_to_side (fun _ => blankCard) atraxaDeck breyaDeck
      (by decide) (by decide)).2.1
  · exact (C1_commanders_to_side (fun _ => blankCard) atraxaDeck breyaDeck
      (by decide) (by decide)).2.2.2.2.2.1

/-- C7 counterexample: a mainboard card whose name is empty is converted and
persisted as an entry with an empty name — nothing is dropped before
serialization. -/
theorem C7_counterexample :
    ((convert_universal_to_cockatrice (fun _ => blankCard) emptyNameDeck).zone_main.map
        (fun e => e.name)) = [[]] ∧
    (convert_universal_to_cockatrice (fun _ => blankCard)
        emptyNameDeck).zone_main.length = emptyNameDeck.mainboard.length := by
  constructor
  · decide
  · decide

/-- C7 amended: no entry is ever dropped for having an empty name — every
mainboard card, in both converters and both branches, yields exactly one
persisted entry whose name is the cleaned raw name, empty names included;
the side zone is the converted sideboard with the commander entries
appended in the universal converter, while the Moxfield commander branch
replaces the whole sideboard zone with the commander entries (a wholesale
discard, not a per-name filter); the only per-name filtering anywhere is
of commander entries, by whitespace-blankness of the raw commander name. -/
theorem C7_no_dropping (choose : List CardRaw → CardRaw)
    (ud : UniversalDeck) (md : MoxfieldDeck) :
    ((convert_universal_to_cockatrice choose ud).zone_main.map (fun e => e.name)
      = ud.mainboard.map (fun c => clean_card_name c.name)) ∧
    ((convert_universal_to_cockatrice choose ud).zone_main.length
      = ud.mainboard.length) ∧
    ((convert_moxfield_to_cockatrice choose md).zone_main.map (fun e => e.name)
      = md.mainboard.map (fun c => clean_card_name c.name)) ∧
    ((convert_moxfield_to_cockatrice choose md).zone_main.length
      = md.mainboard.length) ∧
    ((convert_universal_to_cockatrice choose ud).zone_side
      = make_card_entries ud.sideboard ++
        (if detect_deck_format ud = str "commander" ∨ ud.commanders ≠ []
          then commanderEntries ud.commanders else [])) ∧
    ((convert_moxfield_to_cockatrice choose md).zone_side
      = if md.commanders ≠ [] ∨ toLowerStr md.format = str "commander"
        then commanderEntries md.commanders
        else make_card_entries md.sideboard) ∧
    (∀ l : List CardRaw, (make_card_entries l).map (fun e => e.name)
      = l.map (fun c => clean_card_name c.name)) ∧
    (∀ l : List CardRaw, (make_card_entries l).length = l.length) ∧
    (∀ cs : List Str, ∀ e ∈ commanderEntries cs,
      ∃ c ∈ cs, pyStrip c ≠ [] ∧ e = commanderEntry c) := by
  refine ⟨?_, ?_, ?_, ?_, ?_, ?_, make_card_entries_names,
    make_card_entries_length, commanderEntries_source⟩
  · rw [convert_universal_zone_main]
    exact make_card_entries_names ud.mainboard
  · rw [convert_universal_zone_main]
    exact make_card_entries_length ud.mainboard
  · rw [convert_moxfield_zone_main]
    exact make_card_entries_names md.mainboard
  · rw [convert_moxfield_zone_main]
    exact make_card_entries_length md.mainboard
  · unfold convert_universal_to_cockatrice
    split
    · rfl
    · exact (List.append_nil _).symm
  · unfold convert_moxfield_to_cockatrice
    split
    · rfl
    · rfl

/-- C7 witness: the Moxfield side-zone equation at a concrete commander deck
whose sideboard is discarded, and the commander-source conjunct at a
concrete commander entry. -/
theorem C7_witness :
    ((convert_moxfield_to_cockatrice (fun _ => blankCard) breyaDeck).zone_side
      = if breyaDeck.commanders ≠ [] ∨ toLowerStr breyaDeck.format = str "commander"
        then commanderEntries breyaDeck.commanders
        else make_card_entries breyaDeck.sideboard) ∧
    ∃ c ∈ atraxaDeck.commanders,
      pyStrip c ≠ [] ∧ commanderEntry (str "Atraxa") = commanderEntry c :=
  ⟨(C7_no_dropping (fun _ => blankCard) atraxaDeck breyaDeck).2.2.2.2.2.1,
   (C7_no_dropping (fun _ => blankCard) atraxaDeck breyaDeck).2.2.2.2.2.2.2.2
     atraxaDeck.commanders (commanderEntry (str "Atraxa")) (by decide)⟩

/-! ### Round-trip lemmas for the `.cod` serializer (C3) -/

theorem attrGet_cons_eq (k v : Str) (rest : List (Str × Str)) :
    attrGet ((k, v) :: rest) k = some v := by
  simp [attrGet]

theorem attrGet_cons_ne (k v : Str) (rest : List (Str × Str)) (key : Str)
    (h : k ≠ key) : attrGet ((k, v) :: rest) key = attrGet rest key := by
  simp [attrGet, h]

theorem optTruthy_some_getD (o : Option Str) (h : optTruthy o = true) :
    some (o.getD []) = o := by
  cases o with
  | none => simp [optTruthy] at h
  | some v => rfl

theorem attrGet_entry (c : CardEntry) :
    attrGet (entryAttrs c) (str "number") = some (intToStr c.number) ∧
    attrGet (entryAttrs c) (str "name") = some c.name ∧
    attrGet (entryAttrs c) (str "setShortName") = optNorm c.setShortName ∧
    attrGet (entryAttrs c) (str "collectorNumber") = optNorm c.collectorNumber ∧
    attrGet (entryAttrs c) (str "uuid") = optNorm c.uuid := by
  unfold entryAttrs optNorm
  by_cases h1 : optTruthy c.setShortName <;>
    by_cases h2 : optTruthy c.collectorNumber <;>
    by_cases h3 : optTruthy c.uuid <;>
    refine ⟨?_, ?_, ?_, ?_, ?_⟩ <;>
    simp [h1, h2, h3, attrGet, optTruthy_some_getD, str]

theorem parseCard_write (c : CardEntry) :
    parseCard (XNode.elem (str "card") (entryAttrs c) [] []) = some (normEntry c) := by
  obtain ⟨hnum, hname, hset, hcol, huuid⟩ := attrGet_entry c
  unfold parseCard
  simp only [xattrs, xtext, hnum, hname, hset, hcol, huuid, Option.getD_some,
    pyInt_intToStr]
  unfold normEntry
  by_cases hn : c.name = []
  · simp [hn, pyStrip, pyLstrip, pyRstrip]
  · simp [hn]

theorem parseCards_write (l : List CardEntry) :
    parseCards (l.map (fun c => XNode.elem (str "card") (entryAttrs c) [] []))
      = some (l.map normEntry) := by
  induction l with
  | nil => rfl
  | cons c rest ih =>
    simp only [List.map_cons, parseCards, parseCard_write, ih]

theorem xtag_make_zone (nm : Str) (l : List CardEntry) :
    xtag (make_zone nm l) = str "zone" := rfl

theorem xfindall_card_map (l : List CardEntry) :
    xfindall (str "card")
        (l.map (fun c => XNode.elem (str "card") (entryAttrs c) [] []))
      = l.map (fun c => XNode.elem (str "card") (entryAttrs c) [] []) := by
  apply List.filter_eq_self.mpr
  intro a ha
  obtain ⟨c, _, rfl⟩ := List.mem_map.mp ha
  simp [xtag]

theorem parseZones_write (zm zs : List CardEntry) :
    parseZones [make_zone (str "main") zm, make_zone (str "side") zs]
      = some (zm.map normEntry, zs.map normEntry) := by
  have h1 := parseCards_write zm
  have h2 := parseCards_write zs
  simp only [parseZones, make_zone, xchildren, xattrs, xfindall_card_map, h1, h2,
    attrGet_cons_eq]
  simp [str]

theorem parse_cod_write (ts : Str) (d : CockatriceDeck) :
    parse_cod (write_cod ts d)
      = some { deckname := d.deckname
               zone_main := d.zone_main.map normEntry
               zone_side := d.zone_side.map normEntry } := by
  unfold parse_cod write_cod
  have hzones : xfindall (str "zone")
      [ XNode.elem (str "lastLoadedTimestamp") [] ts []
      , XNode.elem (str "deckname") [] d.deckname []
      , XNode.elem (str "comments") [] [] []
      , XNode.elem (str "tags") [] [] []
      , make_zone (str "main") d.zone_main
      , make_zone (str "side") d.zone_side ]
      = [make_zone (str "main") d.zone_main, make_zone (str "side") d.zone_side] := by
    simp [xfindall, make_zone, xtag, str]
  have hfind : xfind (str "deckname")
      [ XNode.elem (str "lastLoadedTimestamp") [] ts []
      , XNode.elem (str "deckname") [] d.deckname []
      , XNode.elem (str "comments") [] [] []
      , XNode.elem (str "tags") [] [] []
      , make_zone (str "main") d.zone_main
      , make_zone (str "side") d.zone_side ]
      = some (XNode.elem (str "deckname") [] d.deckname []) := by
    simp [xfind, xfindall, make_zone, xtag, str]
  simp only [xchildren, hzones, hfind, parseZones_write, xtext]

/-- C3: writing any pair of zone lists with the serializer and re-parsing
the produced document yields the same multiset of (name, quantity) pairs in
each zone (empty and non-empty zones alike). -/
theorem C3_roundtrip (ts deckname : Str) (main side : List CardEntry) :
    ∃ d2, parse_cod (write_cod ts
        { deckname := deckname, zone_main := main, zone_side := side }) = some d2 ∧
      Multiset.ofList (d2.zone_main.map (fun e => (e.name, e.number)))
        = Multiset.ofList (main.map (fun e => (e.name, e.number))) ∧
      Multiset.ofList (d2.zone_side.map (fun e => (e.name, e.number)))
        = Multiset.ofList (side.map (fun e => (e.name, e.number))) := by
  refine ⟨_, parse_cod_write ts _, ?_, ?_⟩
  · have h : (main.map normEntry).map (fun e => (e.name, e.number))
        = main.map (fun e => (e.name, e.number)) := by
      rw [List.map_map]
      rfl
    simp only [h]
  · have h : (side.map normEntry).map (fun e => (e.name, e.number))
        = side.map (fun e => (e.name, e.number)) := by
      rw [List.map_map]
      rfl
    simp only [h]

/-! ### Catalog pagination lemmas (C8) -/

theorem pageDecks_eq (p : List MoxRec) :
    pageDecks p = (p.filter precon_keep).map mkMoxDeck := by
  unfold pageDecks precon_keep
  rw [List.filter_filter]
  congr 1
  apply List.filter_congr
  intro a _
  rw [Bool.and_comm]

theorem fetch_pages_eq (page_size : Nat) :
    ∀ pages, fetch_pages_loop page_size pages
      = ((truncatePages page_size pages).flatten.filter precon_keep).map mkMoxDeck := by
  intro pages
  induction pages with
  | nil => rfl
  | cons p rest ih =>
    rw [fetch_pages_loop, truncatePages]
    by_cases h0 : p.length = 0
    · simp [h0]
    · rw [if_neg h0, if_neg h0]
      by_cases hs : p.length < page_size
      · rw [if_pos hs, if_pos hs, List.append_nil, pageDecks_eq]
        simp
      · rw [if_neg hs, if_neg hs, ih, pageDecks_eq, List.flatten_cons,
          List.filter_append, List.map_append]

/-- C8: the catalog loop returns exactly the accepted items — format
containing the token, name not a collector edition — drawn from the pages
up to and including the first empty or short page; in the 150-item
two-page scenario with 12 token matches of which 2 are collector editions,
the final list has 10 decks. -/
theorem C8_catalog_filter :
    (∀ (page_size : Nat) (pages : List (List MoxRec)),
      fetch_pages_loop page_size pages
        = ((truncatePages page_size pages).flatten.filter precon_keep).map mkMoxDeck) ∧
    scenarioPage1.length = 100 ∧ scenarioPage2.length = 50 ∧
    ((scenarioPage1 ++ scenarioPage2).filter
      (fun r => hasSub (str "commanderprecon") (toLowerStr r.format))).length = 12 ∧
    ((scenarioPage1 ++ scenarioPage2).filter
      (fun r => hasSub (str "commanderprecon") (toLowerStr r.format)
        && hasSub collectorsEdition (toLowerStr r.name))).length = 2 ∧
    (fetch_pages_loop 100 scenarioPages).length = 10 := by
  refine ⟨fetch_pages_eq, by decide, by decide, by decide, by decide, by decide⟩

/-! ### Placeholder-deck lemmas (C9) -/

theorem create_placeholder_name_ends (url : Str) :
    strEndsWith importFailedMarker (create_placeholder_deck url).name = true := by
  simp only [create_placeholder_deck]
  split_ifs <;> exact strEndsWith_append _ _

theorem goldfish_fail_placeholder (url : Str) (archetype_first : Option Str)
    (arena : ArenaResult)
    (hfail : extract_deck_id url archetype_first = none ∨
      arena = .httpError ∨
      (∃ code ta, arena = .status code ta ∧
        (code ≠ 200 ∨ ta = none ∨ ∃ t, ta = some t ∧ pyStrip t = []))) :
    goldfish_fetch_deck url archetype_first arena = create_placeholder_deck url := by
  unfold goldfish_fetch_deck
  rcases hfail with h | h | ⟨code, ta, rfl, hcase⟩
  · rw [h]
  · subst h
    cases hext : extract_deck_id url archetype_first <;> rfl
  · cases hext : extract_deck_id url archetype_first with
    | none => rfl
    | some i =>
      rcases hcase with hc | hta | ⟨t, rfl, ht⟩
      · simp only []
        rw [if_pos hc]
      · subst hta
        by_cases h200 : code ≠ 200
        · simp only []
          rw [if_pos h200]
        · simp only []
          rw [if_neg h200]
      · by_cases h200 : code ≠ 200
        · simp only []
          rw [if_pos h200]
        · simp only []
          rw [if_neg h200]
          simp [ht]

/-- C9: whenever every strategy fails — no deck id, failed fetch, missing
or empty export textarea — `fetch_deck` returns, without raising, the
placeholder deck: its name ends with the import-failure marker and its
mainboard is the documented non-empty sample list. -/
theorem C9_placeholder (url : Str) (archetype_first : Option Str)
    (arena : ArenaResult)
    (hfail : extract_deck_id url archetype_first = none ∨
      arena = .httpError ∨
      (∃ code ta, arena = .status code ta ∧
        (code ≠ 200 ∨ ta = none ∨ ∃ t, ta = some t ∧ pyStrip t = []))) :
    goldfish_fetch_deck url archetype_first arena = create_placeholder_deck url ∧
    strEndsWith importFailedMarker
      (goldfish_fetch_deck url archetype_first arena).name = true ∧
    (goldfish_fetch_deck url archetype_first arena).mainboard
      = create_sample_cards (str "standard") ∧
    (goldfish_fetch_deck url archetype_first arena).mainboard ≠ [] := by
  have hph := goldfish_fail_placeholder url archetype_first arena hfail
  refine ⟨hph, ?_, ?_, ?_⟩
  · rw [hph]
    exact create_placeholder_name_ends url
  · rw [hph]
    rfl
  · rw [hph]
    show create_sample_cards (str "standard") ≠ []
    decide

/-- C9 witness: a deck URL whose Arena export page has no textarea. -/
theorem C9_witness :
    goldfish_fetch_deck (str "https://www.mtggoldfish.com/deck/300499") none
        (.status 200 none)
      = create_placeholder_deck (str "https://www.mtggoldfish.com/deck/300499") ∧
    strEndsWith importFailedMarker
      (goldfish_fetch_deck (str "https://www.mtggoldfish.com/deck/300499") none
        (.status 200 none)).name = true ∧
    (goldfish_fetch_deck (str "https://www.mtggoldfish.com/deck/300499") none
        (.status 200 none)).mainboard = create_sample_cards (str "standard") ∧
    (goldfish_fetch_deck (str "https://www.mtggoldfish.com/deck/300499") none
        (.status 200 none)).mainboard ≠ [] :=
  C9_placeholder _ none _
    (Or.inr (Or.inr ⟨200, none, rfl, Or.inr (Or.inl rfl)⟩))

end CA
